import Mathlib

/-!
Verification of the `pxconvert` scripts (`convert_img.js`, `convert_imgs.js`).

The scripts drive an image-editing host application: they build fixed open/save
option records, open each source file, convert its color profile to sRGB, save
it as a TIFF and close the document.  We embed the scripts as functions that
produce the list of host calls they issue (the host itself is opaque), plus a
small operational semantics of the host, parametrised by the host's decode,
profile-conversion and encode functions, that interprets such a call list over
a file-system state.
-/

namespace PxConvert

/-- Host enum `ColorSpaceType` (the values the host exposes). -/
inductive ColorSpaceType where
  | SRGB
  | AdobeRGB
  | ColorMatchRGB
  | ProPhotoRGB
  deriving DecidableEq

/-- Host enum `BitsPerChannelType`. -/
inductive BitsPerChannelType where
  | ONE
  | TWO
  | EIGHT
  | SIXTEEN
  | THIRTYTWO
  deriving DecidableEq

/-- Host enum `TIFFEncoding` (TIFF compression choices). -/
inductive TIFFEncoding where
  | NONE
  | TIFFLZW
  | JPEG
  | TIFFZIP
  deriving DecidableEq

/-- Host enum `Intent` (color rendering intents). -/
inductive Intent where
  | ABSOLUTECOLORIMETRIC
  | PERCEPTUAL
  | RELATIVECOLORIMETRIC
  | SATURATION
  deriving DecidableEq

/-- Host enum `SaveOptions` (behaviour on `close`). -/
inductive SaveOptions where
  | DONOTSAVECHANGES
  | PROMPTTOSAVECHANGES
  | SAVECHANGES
  deriving DecidableEq

/-- Host record `CameraRAWOpenOptions`: the fields the scripts set. -/
structure CameraRAWOpenOptions where
  colorSpace : ColorSpaceType
  bitsPerChannel : BitsPerChannelType
  deriving DecidableEq

/-- Host record `TiffSaveOptions`: the fields the scripts set. -/
structure TiffSaveOptions where
  embedColorProfile : Bool
  imageCompression : TIFFEncoding
  deriving DecidableEq

/-- The `openOptions` record both scripts build:
`colorSpace = SRGB`, `bitsPerChannel = SIXTEEN`. -/
def openOptions : CameraRAWOpenOptions :=
  { colorSpace := ColorSpaceType.SRGB, bitsPerChannel := BitsPerChannelType.SIXTEEN }

/-- The `tiffSaveOptions` record both scripts build:
`embedColorProfile = true`, `imageCompression = TIFFLZW`. -/
def tiffSaveOptions : TiffSaveOptions :=
  { embedColorProfile := true, imageCompression := TIFFEncoding.TIFFLZW }

/-- JavaScript `String.prototype.split` with a one-character separator,
on the underlying character list; the accumulator holds the current field
in reverse.  Like JS `split`, it keeps empty fields and yields `[""]` on
the empty string. -/
def splitOnCharAux (sep : Char) : List Char → List Char → List (List Char)
  | [], acc => [acc.reverse]
  | c :: cs, acc =>
      if c = sep then acc.reverse :: splitOnCharAux sep cs []
      else splitOnCharAux sep cs (c :: acc)

/-- JS `s.split(sep)` for a one-character separator. -/
def splitOnChar (sep : Char) (l : List Char) : List (List Char) :=
  splitOnCharAux sep l []

/-- JS `Array.prototype.pop()` on a split result: the last field
(the split result is never empty, so the default is never used). -/
def jsPop (l : List (List Char)) : List Char :=
  l.getLast?.getD []

/-- JS indexing `[0]` on a split result: the first field. -/
def jsFirst (l : List (List Char)) : List Char :=
  l.headD []

/-- `convert_imgs.js` line 26: `docName.split('/').pop().split('.')[0]`,
the base name derived from the (URI-decoded) document name. -/
def baseName (docName : String) : String :=
  String.mk (jsFirst (splitOnChar '.' (jsPop (splitOnChar '/' docName.data))))

/-- The destination file name the batch script builds for a document name:
`baseName + '.tif'`. -/
def destName (docName : String) : String :=
  baseName docName ++ ".tif"

/-- Modelled from the spec: the final path segment of a path,
i.e. the characters after the last `/` (the whole string if there is none). -/
def lastSegmentSpec (l : List Char) : List Char :=
  (l.reverse.takeWhile (fun c => c != '/')).reverse

/-- Modelled from the spec: truncate a name at the first `.`
(keep the characters strictly before the first dot). -/
def truncFirstDotSpec (l : List Char) : List Char :=
  l.takeWhile (fun c => c != '.')

/-- Modelled from the spec: destination filename — final path segment,
truncated at the first `.`, with `.tif` appended. -/
def specDestName (s : String) : String :=
  String.mk (truncFirstDotSpec (lastSegmentSpec s.data)) ++ ".tif"

/-- One call to the host application.  `makeFolder` is the host's
directory-creation operation; it is available to scripts but these scripts
never issue it. -/
inductive HostCall where
  | openDoc (file : String) (opts : CameraRAWOpenOptions)
  | convertProfile (destinationProfile : String) (intent : Intent)
      (blackPointCompensation : Bool) (dither : Bool)
  | saveAs (file : String) (opts : TiffSaveOptions) (asCopy : Bool)
  | closeDoc (saving : SaveOptions)
  | makeFolder (path : String)
  deriving DecidableEq

/-- `convert_img.js`: the sequence of host calls
`open(inFile, openOptions); doc.convertProfile(...); doc.saveAs(outFile, tiffSaveOptions, true); doc.close(DONOTSAVECHANGES)`. -/
def convert_img (inFile outFile : String) : List HostCall :=
  [ HostCall.openDoc inFile openOptions,
    HostCall.convertProfile "sRGB IEC61966-2.1" Intent.RELATIVECOLORIMETRIC true true,
    HostCall.saveAs outFile tiffSaveOptions true,
    HostCall.closeDoc SaveOptions.DONOTSAVECHANGES ]

/-- The output path the batch script builds for one file:
`tiffSubFolder + '/' + baseName + '.tif'`, where the base name is derived
from the URI-decoded document name `name f` the host reports for the file. -/
def outPathOf (name : String → String) (tiffSubFolder : String) (f : String) : String :=
  tiffSubFolder ++ "/" ++ baseName (name f) ++ ".tif"

/-- The body of the batch loop for one file `f`: open, convert profile,
save to the derived output path, close without saving. -/
def jobCalls (name : String → String) (tiffSubFolder : String) (f : String) : List HostCall :=
  [ HostCall.openDoc f openOptions,
    HostCall.convertProfile "sRGB IEC61966-2.1" Intent.RELATIVECOLORIMETRIC true true,
    HostCall.saveAs (outPathOf name tiffSubFolder f) tiffSaveOptions true,
    HostCall.closeDoc SaveOptions.DONOTSAVECHANGES ]

/-- The calls issued by iterating the loop body over a list of files. -/
def convertEach (name : String → String) (tiffSubFolder : String) : List String → List HostCall
  | [] => []
  | f :: rest => jobCalls name tiffSubFolder f ++ convertEach name tiffSubFolder rest

/-- `convert_imgs.js`: `fileList` is the listing returned by
`Folder(sourceDir).getFiles()`, `name` models `decodeURI(doc.name)` for an
opened file.  The TIFF subfolder string is `sourceDir + "/TIFF/"`, and the
loop header `for (var i = 1; i < fileList.length; i++)` starts at index 1,
which `fileList.drop 1` reproduces. -/
def convert_imgs (name : String → String) (sourceDir : String) (fileList : List String) : List HostCall :=
  convertEach name (sourceDir ++ "/TIFF/") (fileList.drop 1)

/-- The list of destination paths the batch script saves to. -/
def outPaths (name : String → String) (sourceDir : String) (fileList : List String) : List String :=
  (fileList.drop 1).map (outPathOf name (sourceDir ++ "/TIFF/"))

/-- An error kind a host call can fail with. -/
inductive ErrKind where
  | InputNotFound
  | DecodeError
  | ColorConversionError
  | EncodeError
  deriving DecidableEq

/-- The opaque parts of the host, as abstract functions on image contents
(contents are modelled as natural numbers): RAW decoding under the open
options, in-memory profile conversion, and TIFF encoding under the save
options.  `none` models the host throwing at that stage. -/
structure HostModel where
  decode : Nat → CameraRAWOpenOptions → Option Nat
  convertColors : Nat → String → Intent → Bool → Bool → Option Nat
  encode : Nat → TiffSaveOptions → Option Nat

/-- Host state: the file system (newest entry first, lookup takes the first
hit), the stack of open documents (source path and in-memory content), the
set of directories created during the run, and a pending error.  A raised
error aborts the rest of the script: every later call is skipped. -/
structure HostState where
  fs : List (String × Nat)
  openDocs : List (String × Nat)
  dirs : List String
  err : Option ErrKind
  deriving DecidableEq

/-- Read a path from the modelled file system. -/
def fsRead (p : String) (fs : List (String × Nat)) : Option Nat :=
  (fs.find? (fun q => q.1 == p)).map (fun q => q.2)

/-- Fresh host session over a given file system. -/
def initState (fs : List (String × Nat)) : HostState :=
  { fs := fs, openDocs := [], dirs := [], err := none }

/-- One host call.  `open` decodes the source file, `convertProfile` and
`saveAs` act on the most recently opened document, `close` pops it —
writing the in-memory content back to the source path exactly when called
with `SAVECHANGES`.  `saveAs` overwrites the destination unconditionally. -/
def step (H : HostModel) (s : HostState) (c : HostCall) : HostState :=
  if s.err.isSome then s else
  match c with
  | HostCall.openDoc f opts =>
      match fsRead f s.fs with
      | none => { s with err := some ErrKind.InputNotFound }
      | some raw =>
          match H.decode raw opts with
          | none => { s with err := some ErrKind.DecodeError }
          | some img => { s with openDocs := (f, img) :: s.openDocs }
  | HostCall.convertProfile prof intent bpc dith =>
      match s.openDocs with
      | [] => s
      | (src, img) :: rest =>
          match H.convertColors img prof intent bpc dith with
          | none => { s with err := some ErrKind.ColorConversionError }
          | some img2 => { s with openDocs := (src, img2) :: rest }
  | HostCall.saveAs f opts _asCopy =>
      match s.openDocs with
      | [] => s
      | (_, img) :: _ =>
          match H.encode img opts with
          | none => { s with err := some ErrKind.EncodeError }
          | some bytes => { s with fs := (f, bytes) :: s.fs }
  | HostCall.closeDoc so =>
      match s.openDocs with
      | [] => s
      | (src, img) :: rest =>
          match so with
          | SaveOptions.SAVECHANGES => { s with openDocs := rest, fs := (src, img) :: s.fs }
          | _ => { s with openDocs := rest }
  | HostCall.makeFolder p => { s with dirs := p :: s.dirs }

/-- Run a call list from a state. -/
def run (H : HostModel) (calls : List HostCall) (s : HostState) : HostState :=
  calls.foldl (step H) s

/-- Does a call use only the fixed conversion configuration (sRGB, 16-bit
open; LZW, embedded-profile save; relative colorimetric intent)? -/
def fixedConfigCall : HostCall → Bool
  | HostCall.openDoc _ opts => opts == openOptions
  | HostCall.saveAs _ opts _ => opts == tiffSaveOptions
  | HostCall.convertProfile _ intent _ _ => intent == Intent.RELATIVECOLORIMETRIC
  | HostCall.closeDoc _ => true
  | HostCall.makeFolder _ => true

/-- Is the call a profile conversion? -/
def isProfileConversion : HostCall → Bool
  | HostCall.convertProfile _ _ _ _ => true
  | _ => false

/-- If the call is a profile conversion, does it target sRGB IEC61966-2.1
with relative colorimetric intent, black-point compensation and dithering? -/
def profileConversionArgsOk : HostCall → Bool
  | HostCall.convertProfile prof intent bpc dith =>
      prof == "sRGB IEC61966-2.1" && intent == Intent.RELATIVECOLORIMETRIC && bpc && dith
  | _ => true

/-- Is the call anything other than a directory creation? -/
def notMakeFolder : HostCall → Bool
  | HostCall.makeFolder _ => false
  | _ => true

/-- Does every close in the call use `DONOTSAVECHANGES`? -/
def closeWithoutSaving : HostCall → Bool
  | HostCall.closeDoc so => so == SaveOptions.DONOTSAVECHANGES
  | _ => true

/-- A host on which every stage succeeds: decoding is the identity,
profile conversion is the identity, encoding adds one. -/
def okHost : HostModel :=
  { decode := fun raw _ => some raw,
    convertColors := fun img _ _ _ _ => some img,
    encode := fun img _ => some (img + 1) }

/-- A host whose profile-conversion stage always throws. -/
def failConvertHost : HostModel :=
  { decode := fun raw _ => some raw,
    convertColors := fun _ _ _ _ _ => none,
    encode := fun img _ => some (img + 1) }

/-- The resource-release invariant: if no error has been raised,
no document is left open. -/
def docsInv (s : HostState) : Prop :=
  s.err = none → s.openDocs = []

theorem takeWhile_append_of_all {α : Type} (p : α → Bool) :
    ∀ (l₁ l₂ : List α), (∀ a ∈ l₁, p a = true) →
      (l₁ ++ l₂).takeWhile p = l₁ ++ l₂.takeWhile p
  | [], l₂, _ => by simp
  | a :: l₁, l₂, h => by
      have ha : p a = true := h a (List.mem_cons_self a l₁)
      simp only [List.cons_append, List.takeWhile_cons, ha, if_true]
      rw [takeWhile_append_of_all p l₁ l₂ (fun b hb => h b (List.mem_cons_of_mem a hb))]

theorem takeWhile_append_of_exists {α : Type} (p : α → Bool) :
    ∀ (l₁ l₂ : List α), (∃ a ∈ l₁, p a = false) →
      (l₁ ++ l₂).takeWhile p = l₁.takeWhile p
  | [], _, h => by simp at h
  | a :: l₁, l₂, h => by
      by_cases ha : p a
      · simp only [List.cons_append, List.takeWhile_cons, ha, if_true]
        obtain ⟨b, hb, hpb⟩ := h
        rcases List.mem_cons.mp hb with rfl | hb'
        · rw [ha] at hpb; cases hpb
        · rw [takeWhile_append_of_exists p l₁ l₂ ⟨b, hb', hpb⟩]
      · simp only [List.cons_append, List.takeWhile_cons, ha]
        simp [Bool.not_eq_true] at ha
        simp [ha]

theorem takeWhile_eq_self_of_all {α : Type} (p : α → Bool) (l : List α)
    (h : ∀ a ∈ l, p a = true) : l.takeWhile p = l := by
  have := takeWhile_append_of_all p l [] h
  simpa using this

theorem splitOnCharAux_ne_nil (sep : Char) :
    ∀ (l acc : List Char), splitOnCharAux sep l acc ≠ []
  | [], acc => by simp [splitOnCharAux]
  | c :: cs, acc => by
      by_cases h : c = sep
      · simp [splitOnCharAux, h]
      · simp only [splitOnCharAux, if_neg h]
        exact splitOnCharAux_ne_nil sep cs (c :: acc)

theorem headD_splitOnCharAux (sep : Char) :
    ∀ (l acc : List Char),
      (splitOnCharAux sep l acc).headD [] = acc.reverse ++ l.takeWhile (fun c => c != sep)
  | [], acc => by simp [splitOnCharAux]
  | c :: cs, acc => by
      by_cases h : c = sep
      · subst h
        simp [splitOnCharAux, List.takeWhile_cons]
      · simp only [splitOnCharAux, if_neg h, List.takeWhile_cons]
        rw [headD_splitOnCharAux sep cs (c :: acc)]
        have hne : (c != sep) = true := by simp [h]
        simp [hne]

theorem getLast_splitOnCharAux (sep : Char) :
    ∀ (l acc : List Char),
      (splitOnCharAux sep l acc).getLast? =
        some (if sep ∈ l then (l.reverse.takeWhile (fun c => c != sep)).reverse
              else acc.reverse ++ l)
  | [], acc => by simp [splitOnCharAux]
  | c :: cs, acc => by
      by_cases h : c = sep
      · subst h
        obtain ⟨b, t, hbt⟩ : ∃ b t, splitOnCharAux c cs [] = b :: t := by
          cases hh : splitOnCharAux c cs [] with
          | nil => exact absurd hh (splitOnCharAux_ne_nil c cs [])
          | cons b t => exact ⟨b, t, rfl⟩
        have e1 : splitOnCharAux c (c :: cs) acc = acc.reverse :: splitOnCharAux c cs [] := by
          simp [splitOnCharAux]
        rw [e1, hbt, List.getLast?_cons_cons, ← hbt, getLast_splitOnCharAux c cs []]
        have hcc : c ∈ c :: cs := List.mem_cons_self c cs
        by_cases hm : c ∈ cs
        · have hx : ∃ a ∈ cs.reverse, (a != c) = false := ⟨c, List.mem_reverse.mpr hm, by simp⟩
          rw [if_pos hm, if_pos hcc, List.reverse_cons, takeWhile_append_of_exists _ _ _ hx]
        · have hx : ∀ a ∈ cs.reverse, (a != c) = true := by
            intro a ha
            have ham : a ∈ cs := List.mem_reverse.mp ha
            have : a ≠ c := fun e => hm (e ▸ ham)
            simp [this]
          rw [if_neg hm, if_pos hcc, List.reverse_cons, takeWhile_append_of_all _ _ _ hx]
          simp
      · have e1 : splitOnCharAux sep (c :: cs) acc = splitOnCharAux sep cs (c :: acc) := by
          simp [splitOnCharAux, h]
        rw [e1, getLast_splitOnCharAux sep cs (c :: acc)]
        have hsc : sep ≠ c := fun e => h e.symm
        by_cases hm : sep ∈ cs
        · have hmem : sep ∈ c :: cs := List.mem_cons_of_mem c hm
          have hx : ∃ a ∈ cs.reverse, (a != sep) = false := ⟨sep, List.mem_reverse.mpr hm, by simp⟩
          rw [if_pos hm, if_pos hmem, List.reverse_cons, takeWhile_append_of_exists _ _ _ hx]
        · have hmem : sep ∉ c :: cs := by
            intro hc
            rcases List.mem_cons.mp hc with e | e
            · exact hsc e
            · exact hm e
          rw [if_neg hm, if_neg hmem]
          simp

theorem jsPop_splitOnChar (sep : Char) (l : List Char) :
    jsPop (splitOnChar sep l) = (l.reverse.takeWhile (fun c => c != sep)).reverse := by
  unfold jsPop splitOnChar
  rw [getLast_splitOnCharAux]
  by_cases h : sep ∈ l
  · simp [h]
  · have hx : ∀ a ∈ l.reverse, (a != sep) = true := by
      intro a ha
      have ham : a ∈ l := List.mem_reverse.mp ha
      have : a ≠ sep := fun e => h (e ▸ ham)
      simp [this]
    rw [takeWhile_eq_self_of_all _ _ hx]
    simp [h]

theorem jsFirst_splitOnChar (sep : Char) (l : List Char) :
    jsFirst (splitOnChar sep l) = l.takeWhile (fun c => c != sep) := by
  unfold jsFirst splitOnChar
  rw [headD_splitOnCharAux]
  simp

theorem baseName_eq_spec (s : String) :
    baseName s = String.mk (truncFirstDotSpec (lastSegmentSpec s.data)) := by
  unfold baseName lastSegmentSpec truncFirstDotSpec
  rw [jsPop_splitOnChar, jsFirst_splitOnChar]


theorem run_cons (H : HostModel) (c : HostCall) (calls : List HostCall) (s : HostState) :
    run H (c :: calls) s = run H calls (step H s c) := rfl

theorem run_append (H : HostModel) (l1 l2 : List HostCall) (s : HostState) :
    run H (l1 ++ l2) s = run H l2 (run H l1 s) := by
  simp [run, List.foldl_append]

theorem step_of_err (H : HostModel) (s : HostState) (c : HostCall) (h : s.err.isSome) :
    step H s c = s := by
  simp [step, h]

theorem run_of_err (H : HostModel) (calls : List HostCall) (s : HostState) (h : s.err.isSome) :
    run H calls s = s := by
  induction calls with
  | nil => rfl
  | cons c cs ih => rw [run_cons, step_of_err H s c h]; exact ih

theorem fsRead_cons (p q : String) (v : Nat) (fs : List (String × Nat)) :
    fsRead p ((q, v) :: fs) = if q = p then some v else fsRead p fs := by
  by_cases h : q = p
  · simp [fsRead, List.find?, h]
  · simp only [fsRead, List.find?]
    have : ((q, v).1 == p) = false := by simp [h]
    simp [this, h]

theorem fs_step_openDoc (H : HostModel) (s : HostState) (f : String) (opts : CameraRAWOpenOptions) :
    (step H s (HostCall.openDoc f opts)).fs = s.fs := by
  by_cases he : s.err.isSome
  · rw [step_of_err H s _ he]
  · rcases hr : fsRead f s.fs with _ | raw
    · simp [step, he, hr]
    · rcases hd : H.decode raw opts with _ | img <;> simp [step, he, hr, hd]

theorem fs_step_convertProfile (H : HostModel) (s : HostState) (prof : String) (intent : Intent)
    (bpc dith : Bool) :
    (step H s (HostCall.convertProfile prof intent bpc dith)).fs = s.fs := by
  by_cases he : s.err.isSome
  · rw [step_of_err H s _ he]
  · rcases ho : s.openDocs with _ | ⟨⟨src, img⟩, rest⟩
    · simp [step, he, ho]
    · rcases hc : H.convertColors img prof intent bpc dith with _ | img2 <;>
        simp [step, he, ho, hc]

theorem fsRead_step_saveAs (H : HostModel) (s : HostState) (f : String) (opts : TiffSaveOptions)
    (b : Bool) (p : String) (hfp : f ≠ p) :
    fsRead p (step H s (HostCall.saveAs f opts b)).fs = fsRead p s.fs := by
  by_cases he : s.err.isSome
  · rw [step_of_err H s _ he]
  · rcases ho : s.openDocs with _ | ⟨⟨src, img⟩, rest⟩
    · simp [step, he, ho]
    · rcases hc : H.encode img opts with _ | bytes
      · simp [step, he, ho, hc]
      · simp [step, he, ho, hc, fsRead_cons, hfp]

theorem fs_step_closeDont (H : HostModel) (s : HostState) :
    (step H s (HostCall.closeDoc SaveOptions.DONOTSAVECHANGES)).fs = s.fs := by
  by_cases he : s.err.isSome
  · rw [step_of_err H s _ he]
  · rcases ho : s.openDocs with _ | ⟨⟨src, img⟩, rest⟩ <;> simp [step, he, ho]

theorem fsRead_run_jobCalls (H : HostModel) (name : String → String) (tiffSub f p : String)
    (s : HostState) (hp : outPathOf name tiffSub f ≠ p) :
    fsRead p (run H (jobCalls name tiffSub f) s).fs = fsRead p s.fs := by
  show fsRead p (step H (step H (step H (step H s
      (HostCall.openDoc f openOptions))
      (HostCall.convertProfile "sRGB IEC61966-2.1" Intent.RELATIVECOLORIMETRIC true true))
      (HostCall.saveAs (outPathOf name tiffSub f) tiffSaveOptions true))
      (HostCall.closeDoc SaveOptions.DONOTSAVECHANGES)).fs = fsRead p s.fs
  rw [fs_step_closeDont, fsRead_step_saveAs _ _ _ _ _ _ hp, fs_step_convertProfile,
    fs_step_openDoc]

theorem fsRead_run_convertEach (H : HostModel) (name : String → String) (tiffSub p : String) :
    ∀ (fl : List String) (s : HostState), (∀ f ∈ fl, outPathOf name tiffSub f ≠ p) →
      fsRead p (run H (convertEach name tiffSub fl) s).fs = fsRead p s.fs
  | [], s, _ => rfl
  | f :: rest, s, h => by
      rw [convertEach, run_append,
        fsRead_run_convertEach H name tiffSub p rest _
          (fun g hg => h g (List.mem_cons_of_mem f hg)),
        fsRead_run_jobCalls H name tiffSub f p s (h f (List.mem_cons_self f rest))]


theorem convert_img_run (H : HostModel) (i o : String) (fs : List (String × Nat)) :
    run H (convert_img i o) (initState fs) =
      match fsRead i fs with
      | none => { fs := fs, openDocs := [], dirs := [], err := some ErrKind.InputNotFound }
      | some raw =>
        match H.decode raw openOptions with
        | none => { fs := fs, openDocs := [], dirs := [], err := some ErrKind.DecodeError }
        | some img =>
          match H.convertColors img "sRGB IEC61966-2.1" Intent.RELATIVECOLORIMETRIC true true with
          | none => { fs := fs, openDocs := [(i, img)], dirs := [],
                      err := some ErrKind.ColorConversionError }
          | some img2 =>
            match H.encode img2 tiffSaveOptions with
            | none => { fs := fs, openDocs := [(i, img2)], dirs := [],
                        err := some ErrKind.EncodeError }
            | some bytes => { fs := (o, bytes) :: fs, openDocs := [], dirs := [], err := none } := by
  rcases hr : fsRead i fs with _ | raw
  · simp [run, convert_img, List.foldl, step, initState, hr]
  · rcases hd : H.decode raw openOptions with _ | img
    · simp [run, convert_img, List.foldl, step, initState, hr, hd]
    · rcases hc : H.convertColors img "sRGB IEC61966-2.1" Intent.RELATIVECOLORIMETRIC true true
        with _ | img2
      · simp [run, convert_img, List.foldl, step, initState, hr, hd, hc]
      · rcases he : H.encode img2 tiffSaveOptions with _ | bytes
        · simp [run, convert_img, List.foldl, step, initState, hr, hd, hc, he]
        · simp [run, convert_img, List.foldl, step, initState, hr, hd, hc, he]

theorem docsInv_of_err (s : HostState) (h : s.err.isSome) : docsInv s := by
  intro he
  rw [he] at h
  simp at h

theorem docsInv_run_job (H : HostModel) (f prof out : String) (oopts : CameraRAWOpenOptions)
    (intent : Intent) (bpc dith : Bool) (sopts : TiffSaveOptions) (b : Bool)
    (s : HostState) (h : docsInv s) :
    docsInv (run H [HostCall.openDoc f oopts,
      HostCall.convertProfile prof intent bpc dith,
      HostCall.saveAs out sopts b,
      HostCall.closeDoc SaveOptions.DONOTSAVECHANGES] s) := by
  by_cases he : s.err.isSome
  · rw [run_of_err H _ s he]; exact h
  · have he' : s.err = none := by
      cases e : s.err
      · rfl
      · rw [e] at he; simp at he
    have hod : s.openDocs = [] := h he'
    obtain ⟨fs, od, dirs, err⟩ := s
    simp only at he' hod
    subst he' hod
    rcases hr : fsRead f fs with _ | raw
    · simp [run, List.foldl, step, hr, docsInv]
    · rcases hd : H.decode raw oopts with _ | img
      · simp [run, List.foldl, step, hr, hd, docsInv]
      · rcases hc : H.convertColors img prof intent bpc dith with _ | img2
        · simp [run, List.foldl, step, hr, hd, hc, docsInv]
        · rcases hsv : H.encode img2 sopts with _ | bytes
          · simp [run, List.foldl, step, hr, hd, hc, hsv, docsInv]
          · simp [run, List.foldl, step, hr, hd, hc, hsv, docsInv]

theorem docsInv_run_convertEach (H : HostModel) (name : String → String) (tiffSub : String) :
    ∀ (fl : List String) (s : HostState), docsInv s →
      docsInv (run H (convertEach name tiffSub fl) s)
  | [], _, h => h
  | f :: rest, s, h => by
      rw [convertEach, run_append]
      exact docsInv_run_convertEach H name tiffSub rest _
        (docsInv_run_job H f "sRGB IEC61966-2.1" (outPathOf name tiffSub f) openOptions
          Intent.RELATIVECOLORIMETRIC true true tiffSaveOptions true s h)

theorem dirs_step (H : HostModel) (s : HostState) (c : HostCall) (h : notMakeFolder c = true) :
    (step H s c).dirs = s.dirs := by
  by_cases he : s.err.isSome
  · rw [step_of_err H s c he]
  · cases c with
    | openDoc f opts =>
        rcases hr : fsRead f s.fs with _ | raw
        · simp [step, he, hr]
        · rcases hd : H.decode raw opts with _ | img <;> simp [step, he, hr, hd]
    | convertProfile prof intent bpc dith =>
        rcases ho : s.openDocs with _ | ⟨⟨src, img⟩, rest⟩
        · simp [step, he, ho]
        · rcases hc : H.convertColors img prof intent bpc dith with _ | img2 <;>
            simp [step, he, ho, hc]
    | saveAs f opts b =>
        rcases ho : s.openDocs with _ | ⟨⟨src, img⟩, rest⟩
        · simp [step, he, ho]
        · rcases hc : H.encode img opts with _ | bytes <;> simp [step, he, ho, hc]
    | closeDoc so =>
        rcases ho : s.openDocs with _ | ⟨⟨src, img⟩, rest⟩
        · simp [step, he, ho]
        · cases so <;> simp [step, he, ho]
    | makeFolder p => simp [notMakeFolder] at h

theorem dirs_run (H : HostModel) :
    ∀ (calls : List HostCall) (s : HostState), calls.all notMakeFolder = true →
      (run H calls s).dirs = s.dirs
  | [], _, _ => rfl
  | c :: cs, s, h => by
      rw [List.all_cons, Bool.and_eq_true] at h
      rw [run_cons, dirs_run H cs _ h.2, dirs_step H s c h.1]

theorem all_convertEach (p : HostCall → Bool) (name : String → String) (tiffSub : String)
    (hjob : ∀ f, (jobCalls name tiffSub f).all p = true) :
    ∀ fl : List String, (convertEach name tiffSub fl).all p = true
  | [] => rfl
  | f :: rest => by
      rw [convertEach, List.all_append, hjob f, all_convertEach p name tiffSub hjob rest]
      rfl

theorem filter_convertEach_length (name : String → String) (tiffSub : String) :
    ∀ fl : List String,
      ((convertEach name tiffSub fl).filter isProfileConversion).length = fl.length
  | [] => rfl
  | f :: rest => by
      rw [convertEach, List.filter_append, List.length_append,
        filter_convertEach_length name tiffSub rest]
      simp [jobCalls, List.filter, isProfileConversion, Nat.add_comm]


/-- Claim C1: false of the code — the batch loop header starts at index 1,
so the first entry of the directory listing is never processed: the call
trace does not depend on the first listing entry at all, and on the listing
["a.CR2", "b.CR2"] the file "a.CR2" is never opened while "b.CR2" is. -/
theorem first_listing_entry_skipped :
    (∀ (name : String → String) (srcDir x y : String) (rest : List String),
      convert_imgs name srcDir (x :: rest) = convert_imgs name srcDir (y :: rest))
    ∧ HostCall.openDoc "a.CR2" openOptions ∉ convert_imgs (fun n => n) "d" ["a.CR2", "b.CR2"]
    ∧ HostCall.openDoc "b.CR2" openOptions ∈ convert_imgs (fun n => n) "d" ["a.CR2", "b.CR2"] :=
  ⟨fun _ _ _ _ _ => rfl, by decide, by decide⟩

/-- Claim C2: the derived destination filename is the final path segment of
the document name, truncated at the first dot, with ".tif" appended; in
particular "photo.CR2" maps to "photo.tif", "a.b.c.CR2" to "a.tif" and
"noext" to "noext.tif". -/
theorem dest_filename_first_dot_split :
    (∀ s : String, destName s = specDestName s)
    ∧ destName "photo.CR2" = "photo.tif"
    ∧ destName "a.b.c.CR2" = "a.tif"
    ∧ destName "noext" = "noext.tif" :=
  ⟨fun s => by rw [destName, specDestName, baseName_eq_spec], by decide, by decide, by decide⟩

/-- Claim C3: both scripts fix the conversion options to sRGB color space,
16 bits per channel, LZW compression, embedded color profile and relative
colorimetric intent, and every call either script issues — in particular
every save producing an output file — uses exactly this configuration. -/
theorem fixed_conversion_options :
    openOptions = { colorSpace := ColorSpaceType.SRGB,
                    bitsPerChannel := BitsPerChannelType.SIXTEEN }
    ∧ tiffSaveOptions = { embedColorProfile := true,
                          imageCompression := TIFFEncoding.TIFFLZW }
    ∧ (∀ i o : String, (convert_img i o).all fixedConfigCall = true)
    ∧ (∀ (name : String → String) (srcDir : String) (fl : List String),
        (convert_imgs name srcDir fl).all fixedConfigCall = true) :=
  ⟨rfl, rfl,
    fun i o => by simp [convert_img, fixedConfigCall],
    fun name srcDir fl =>
      all_convertEach fixedConfigCall name (srcDir ++ "/TIFF/")
        (fun f => by simp [jobCalls, fixedConfigCall]) (fl.drop 1)⟩

/-- Claim C8: every profile conversion either script issues targets the
profile "sRGB IEC61966-2.1" with relative colorimetric intent and both
trailing boolean flags (black-point compensation, dithering) true — and
each conversion job contains exactly one profile conversion. -/
theorem profile_conversion_fixed_args :
    (∀ i o : String, (convert_img i o).all profileConversionArgsOk = true
      ∧ ((convert_img i o).filter isProfileConversion).length = 1)
    ∧ (∀ (name : String → String) (srcDir : String) (fl : List String),
        (convert_imgs name srcDir fl).all profileConversionArgsOk = true
        ∧ ((convert_imgs name srcDir fl).filter isProfileConversion).length
            = (fl.drop 1).length) :=
  ⟨fun i o => ⟨by simp [convert_img, profileConversionArgsOk],
      by simp [convert_img, List.filter, isProfileConversion]⟩,
    fun name srcDir fl =>
      ⟨all_convertEach profileConversionArgsOk name (srcDir ++ "/TIFF/")
          (fun f => by simp [jobCalls, profileConversionArgsOk]) (fl.drop 1),
        filter_convertEach_length name (srcDir ++ "/TIFF/") (fl.drop 1)⟩⟩

/-- Claim C9: if the final path segment of the document name begins with a
dot, the first-dot split yields the empty base name, so the derived
destination filename is exactly ".tif". -/
theorem hidden_file_empty_basename (s : String) (t : List Char)
    (h : lastSegmentSpec s.data = '.' :: t) :
    baseName s = "" ∧ destName s = ".tif" := by
  have htr : truncFirstDotSpec ('.' :: t) = [] := by
    simp [truncFirstDotSpec]
  have hb : baseName s = "" := by
    rw [baseName_eq_spec, h, htr]
  refine ⟨hb, ?_⟩
  rw [destName, hb]
  decide

/-- Witness for C9 at the concrete hidden-file name ".hidden". -/
theorem hidden_file_empty_basename_witness :
    lastSegmentSpec (String.data ".hidden") = '.' :: String.data "hidden"
    ∧ (baseName ".hidden" = "" ∧ destName ".hidden" = ".tif") :=
  ⟨by decide, hidden_file_empty_basename ".hidden" (String.data "hidden") (by decide)⟩

/-- Claim C10: the filename derivation is not injective — the distinct
source names "a.b.CR2" and "a.c.CR2" derive the same destination "a.tif" —
and in a batch run over a listing containing both, the two jobs save to the
same destination path, the later job's bytes shadowing the earlier job's:
two processed files produce a single output path. -/
theorem dest_name_collision_overwrite :
    "a.b.CR2" ≠ "a.c.CR2"
    ∧ destName "a.b.CR2" = "a.tif"
    ∧ destName "a.c.CR2" = "a.tif"
    ∧ outPaths (fun n => n) "d" ["skip.CR2", "a.b.CR2", "a.c.CR2"]
        = ["d/TIFF//a.tif", "d/TIFF//a.tif"]
    ∧ (run okHost (convert_imgs (fun n => n) "d" ["skip.CR2", "a.b.CR2", "a.c.CR2"])
        (initState [("a.b.CR2", 10), ("a.c.CR2", 20)])).fs
        = [("d/TIFF//a.tif", 21), ("d/TIFF//a.tif", 11), ("a.b.CR2", 10), ("a.c.CR2", 20)]
    ∧ fsRead "d/TIFF//a.tif" (run okHost (convert_imgs (fun n => n) "d"
        ["skip.CR2", "a.b.CR2", "a.c.CR2"])
        (initState [("a.b.CR2", 10), ("a.c.CR2", 20)])).fs = some 21 :=
  ⟨by decide, by decide, by decide, by decide, by decide, by decide⟩


/-- Claim C4 counterexample: on a concrete batch run in a fresh session where
no directory exists (so the TIFF subdirectory is absent) and the listed file
"b.CR2" is present, an output file is written, yet the trace contains no
directory-creation call and the set of created directories stays empty. -/
theorem tiff_dir_never_created_cex :
    (convert_imgs (fun n => n) "d" ["x.CR2", "b.CR2"]).all notMakeFolder = true
    ∧ (run okHost (convert_imgs (fun n => n) "d" ["x.CR2", "b.CR2"])
        (initState [("b.CR2", 5)])).dirs = []
    ∧ fsRead "d/TIFF//b.tif" (run okHost (convert_imgs (fun n => n) "d" ["x.CR2", "b.CR2"])
        (initState [("b.CR2", 5)])).fs = some 6 :=
  ⟨by decide, by decide, by decide⟩

/-- Claim C4 amended: the batch script never creates the TIFF subdirectory
(or any directory): its trace contains no directory-creation call, and every
run leaves the session's set of created directories empty; output paths under
the TIFF subdirectory are used assuming the directory already exists. -/
theorem no_folder_creation (name : String → String) (srcDir : String) (fileList : List String)
    (H : HostModel) (fs : List (String × Nat)) :
    (convert_imgs name srcDir fileList).all notMakeFolder = true
    ∧ (run H (convert_imgs name srcDir fileList) (initState fs)).dirs = [] := by
  have hall : (convert_imgs name srcDir fileList).all notMakeFolder = true :=
    all_convertEach notMakeFolder name (srcDir ++ "/TIFF/")
      (fun f => by simp [jobCalls, notMakeFolder]) (fileList.drop 1)
  exact ⟨hall, (dirs_run H (convert_imgs name srcDir fileList) (initState fs) hall).trans rfl⟩

/-- Claim C6 counterexample: with a host whose profile-conversion step
throws, the single-file script leaves the opened document unreleased: the
error aborts the script before the close call, so the document stays open. -/
theorem document_left_open_cex :
    (run failConvertHost (convert_img "in.CR2" "out.tif")
      (initState [("in.CR2", 7)])).openDocs = [("in.CR2", 7)]
    ∧ (run failConvertHost (convert_img "in.CR2" "out.tif")
        (initState [("in.CR2", 7)])).err = some ErrKind.ColorConversionError :=
  ⟨by decide, by decide⟩

/-- Claim C6 amended: on any run of either script in which no step fails,
every opened document is closed (no document remains open at the end); when
a decode, profile-conversion or save step fails, the close is never reached
and the document is left open. -/
theorem document_closed_on_success (H : HostModel) (i o : String) (name : String → String)
    (srcDir : String) (fileList : List String) (fs : List (String × Nat)) :
    ((run H (convert_img i o) (initState fs)).err = none →
      (run H (convert_img i o) (initState fs)).openDocs = [])
    ∧ ((run H (convert_imgs name srcDir fileList) (initState fs)).err = none →
      (run H (convert_imgs name srcDir fileList) (initState fs)).openDocs = []) := by
  constructor
  · exact docsInv_run_job H i "sRGB IEC61966-2.1" o openOptions Intent.RELATIVECOLORIMETRIC
      true true tiffSaveOptions true (initState fs) (fun _ => rfl)
  · exact docsInv_run_convertEach H name (srcDir ++ "/TIFF/") (fileList.drop 1)
      (initState fs) (fun _ => rfl)

/-- Witness for C6's amended theorem on a concrete successful run. -/
theorem document_closed_on_success_witness :
    (run okHost (convert_img "in.CR2" "out.tif") (initState [("in.CR2", 3)])).openDocs = [] :=
  (document_closed_on_success okHost "in.CR2" "out.tif" (fun n => n) "d" ["x.CR2", "b.CR2"]
    [("in.CR2", 3)]).1 (by decide)

/-- Claim C7: a conversion run writes only its destination path(s): every
close either script issues uses DONOTSAVECHANGES, and every path other than
the destination path(s) — in particular the source file whenever it differs
from the destination — reads the same after the run as before it. -/
theorem only_destination_written (H : HostModel) (i o : String) (name : String → String)
    (srcDir : String) (fileList : List String) (fs : List (String × Nat)) (p : String)
    (h1 : p ≠ o) (h2 : p ∉ outPaths name srcDir fileList) :
    fsRead p (run H (convert_img i o) (initState fs)).fs = fsRead p fs
    ∧ fsRead p (run H (convert_imgs name srcDir fileList) (initState fs)).fs = fsRead p fs
    ∧ (convert_img i o).all closeWithoutSaving = true
    ∧ (convert_imgs name srcDir fileList).all closeWithoutSaving = true := by
  refine ⟨?_, ?_, ?_, ?_⟩
  · show fsRead p (step H (step H (step H (step H (initState fs)
        (HostCall.openDoc i openOptions))
        (HostCall.convertProfile "sRGB IEC61966-2.1" Intent.RELATIVECOLORIMETRIC true true))
        (HostCall.saveAs o tiffSaveOptions true))
        (HostCall.closeDoc SaveOptions.DONOTSAVECHANGES)).fs = fsRead p fs
    rw [fs_step_closeDont, fsRead_step_saveAs _ _ _ _ _ _ (fun e => h1 e.symm),
      fs_step_convertProfile, fs_step_openDoc]
    rfl
  · apply fsRead_run_convertEach
    intro f hf e
    exact h2 (e ▸ List.mem_map_of_mem (outPathOf name (srcDir ++ "/TIFF/")) hf)
  · simp [convert_img, closeWithoutSaving]
  · exact all_convertEach closeWithoutSaving name (srcDir ++ "/TIFF/")
      (fun f => by simp [jobCalls, closeWithoutSaving]) (fileList.drop 1)

/-- Witness for C7 at concrete paths. -/
theorem only_destination_written_witness :
    ("in.CR2" ≠ "out.tif" ∧ "in.CR2" ∉ outPaths (fun n => n) "d" ["x.CR2", "b.CR2"])
    ∧ fsRead "in.CR2" (run okHost (convert_img "in.CR2" "out.tif")
        (initState [("in.CR2", 3), ("b.CR2", 5)])).fs
        = fsRead "in.CR2" [("in.CR2", 3), ("b.CR2", 5)] :=
  ⟨⟨by decide, by decide⟩,
    (only_destination_written okHost "in.CR2" "out.tif" (fun n => n) "d" ["x.CR2", "b.CR2"]
      [("in.CR2", 3), ("b.CR2", 5)] "in.CR2" (by decide) (by decide)).1⟩

theorem run_again_of_err (H : HostModel) (i o : String) (fs0 : List (String × Nat))
    (hfs : (run H (convert_img i o) (initState fs0)).fs = fs0)
    (herr : (run H (convert_img i o) (initState fs0)).err ≠ none) :
    (∀ p, fsRead p (run H (convert_img i o)
        (initState (run H (convert_img i o) (initState fs0)).fs)).fs
      = fsRead p (run H (convert_img i o) (initState fs0)).fs)
    ∧ ((run H (convert_img i o) (initState fs0)).err = none →
        (run H (convert_img i o)
          (initState (run H (convert_img i o) (initState fs0)).fs)).err = none) := by
  constructor
  · intro p
    rw [hfs, hfs]
  · intro h
    exact absurd h herr

/-- Claim C5: running the single-file conversion twice with the same input
and output paths (input distinct from output) is idempotent — after the
second run every path of the file system reads the same as after the first,
so the destination holds byte-identical content — and when the first run
succeeds the second run succeeds as well even though the destination file
already exists: the save overwrites it without prompting. -/
theorem convert_img_idempotent (H : HostModel) (i o : String) (fs0 : List (String × Nat))
    (hio : i ≠ o) :
    (∀ p, fsRead p (run H (convert_img i o)
        (initState (run H (convert_img i o) (initState fs0)).fs)).fs
      = fsRead p (run H (convert_img i o) (initState fs0)).fs)
    ∧ ((run H (convert_img i o) (initState fs0)).err = none →
        (run H (convert_img i o)
          (initState (run H (convert_img i o) (initState fs0)).fs)).err = none) := by
  rcases hr : fsRead i fs0 with _ | raw
  · have h1 : run H (convert_img i o) (initState fs0)
        = { fs := fs0, openDocs := [], dirs := [], err := some ErrKind.InputNotFound } := by
      rw [convert_img_run]
      simp [hr]
    exact run_again_of_err H i o fs0 (by rw [h1]) (by rw [h1]; simp)
  · rcases hd : H.decode raw openOptions with _ | img
    · have h1 : run H (convert_img i o) (initState fs0)
          = { fs := fs0, openDocs := [], dirs := [], err := some ErrKind.DecodeError } := by
        rw [convert_img_run]
        simp [hr, hd]
      exact run_again_of_err H i o fs0 (by rw [h1]) (by rw [h1]; simp)
    · rcases hc : H.convertColors img "sRGB IEC61966-2.1" Intent.RELATIVECOLORIMETRIC true true
        with _ | img2
      · have h1 : run H (convert_img i o) (initState fs0)
            = { fs := fs0, openDocs := [(i, img)], dirs := [],
                err := some ErrKind.ColorConversionError } := by
          rw [convert_img_run]
          simp [hr, hd, hc]
        exact run_again_of_err H i o fs0 (by rw [h1]) (by rw [h1]; simp)
      · rcases he : H.encode img2 tiffSaveOptions with _ | bytes
        · have h1 : run H (convert_img i o) (initState fs0)
              = { fs := fs0, openDocs := [(i, img2)], dirs := [],
                  err := some ErrKind.EncodeError } := by
            rw [convert_img_run]
            simp [hr, hd, hc, he]
          exact run_again_of_err H i o fs0 (by rw [h1]) (by rw [h1]; simp)
        · have h1 : run H (convert_img i o) (initState fs0)
              = { fs := (o, bytes) :: fs0, openDocs := [], dirs := [], err := none } := by
            rw [convert_img_run]
            simp [hr, hd, hc, he]
          have hfs : (run H (convert_img i o) (initState fs0)).fs = (o, bytes) :: fs0 := by
            rw [h1]
          have hri : fsRead i ((o, bytes) :: fs0) = some raw := by
            rw [fsRead_cons, if_neg (fun e => hio e.symm), hr]
          have h2 : run H (convert_img i o) (initState ((o, bytes) :: fs0))
              = { fs := (o, bytes) :: (o, bytes) :: fs0, openDocs := [], dirs := [],
                  err := none } := by
            rw [convert_img_run]
            simp [hri, hd, hc, he]
          constructor
          · intro p
            rw [hfs, h2]
            show fsRead p ((o, bytes) :: (o, bytes) :: fs0) = fsRead p ((o, bytes) :: fs0)
            by_cases hop : o = p <;> simp [fsRead_cons, hop]
          · intro _
            rw [hfs, h2]

/-- Witness for C5 at concrete paths on an all-success host. -/
theorem convert_img_idempotent_witness :
    "in.CR2" ≠ "out.tif"
    ∧ fsRead "out.tif" (run okHost (convert_img "in.CR2" "out.tif")
        (initState (run okHost (convert_img "in.CR2" "out.tif")
          (initState [("in.CR2", 3)])).fs)).fs
      = fsRead "out.tif" (run okHost (convert_img "in.CR2" "out.tif")
          (initState [("in.CR2", 3)])).fs :=
  ⟨by decide,
    (convert_img_idempotent okHost "in.CR2" "out.tif" [("in.CR2", 3)] (by decide)).1 "out.tif"⟩

end PxConvert
